import Mathlib

/-!
Verification of the SIG inventory QR backend (src/server.js, canonical
unified variant). The Mongoose collections are embedded as Lean lists
kept in creation order (Mongo assigns monotonically increasing
`createdAt` timestamps with the `timestamps: true` schema option, so
"sorted by `createdAt`" coincides with list order). Each Express route
handler becomes a pure state-transition function on a `Store`.
-/

namespace SigInventario

/-- `status` enum of the item schema (src/server.js lines 296-300). -/
inductive Status where
  | new
  | available
  | borrowed
  | repair
deriving DecidableEq, Repr

/-- Embedding of the `Item` Mongoose schema (src/server.js lines 291-313).
`loanDate` timestamps are abstracted as naturals; `stock` is an `Int`
because the route handlers never validate that the stored number is
non-negative. The source spells the consumable flag `isConsumible`. -/
structure Item where
  qrCode : String
  name : String
  category : String
  description : String
  status : Status
  currentHolder : Option String
  loanDate : Option Nat
  registeredBy : String
  isConsumible : Bool
  stock : Int
deriving DecidableEq, Repr

/-- `action` enum of the history schema (src/server.js lines 321-325).
`return` is a Lean keyword, so that action is called `ret` here. -/
inductive HAction where
  | borrow
  | ret
  | register
  | repair
  | consumption
deriving DecidableEq, Repr

/-- Embedding of the `History` Mongoose schema (src/server.js lines
315-340). `itemId` stores the referenced item's `qrCode` (a stand-in
for the Mongo ObjectId: `qrCode` is unique and immutable). `createdAt`
is the creation counter assigned at append time. -/
structure HistoryEntry where
  itemId : String
  action : HAction
  person : String
  validatedBy : String
  quantity : Int
  notes : String
  createdAt : Nat
deriving DecidableEq, Repr

/-- Attendance `action` enum (src/server.js line 284). -/
inductive AttAction where
  | IN
  | OUT
deriving DecidableEq, Repr

/-- One element of the worker's embedded `attendance` array
(src/server.js lines 283-287). -/
structure AttendanceEntry where
  action : AttAction
  timestamp : Nat
  notes : String
deriving DecidableEq, Repr

/-- `role` enum of the worker schema (src/server.js lines 278-282). -/
inductive Role where
  | superAdmin
  | almacenero
  | trabajador
deriving DecidableEq, Repr

/-- Embedding of the `Worker` Mongoose schema (src/server.js lines
273-288). -/
structure Worker where
  qrCode : String
  name : String
  position : String
  pin : String
  role : Role
  attendance : List AttendanceEntry
deriving DecidableEq, Repr

/-- The persisted state: the three Mongo collections, each as a list in
creation order. -/
structure Store where
  items : List Item
  workers : List Worker
  history : List HistoryEntry
deriving DecidableEq, Repr

/-- `Item.findOne({ qrCode })`: first item whose code matches. -/
def findOneItem (items : List Item) (qr : String) : Option Item :=
  items.find? (fun i => i.qrCode == qr)

/-- `Worker.findOne({ qrCode })`: first worker whose code matches. -/
def findOneWorker (ws : List Worker) (qr : String) : Option Worker :=
  ws.find? (fun w => w.qrCode == qr)

/-- `Item.findOneAndUpdate(filter, update, { new: true })`: applies `f`
to the first element satisfying `p`, returning the updated document
(or `none` when nothing matched) together with the updated collection. -/
def findOneAndUpdate (items : List Item) (p : Item → Bool) (f : Item → Item) :
    Option Item × List Item :=
  match items with
  | [] => (none, [])
  | x :: xs =>
    if p x then (some (f x), f x :: xs)
    else
      let r := findOneAndUpdate xs p f
      (r.1, x :: r.2)

/-- Outcome of a mutating route handler, following the error taxonomy the
handlers encode in their early returns: missing required fields (HTTP 400
validation), unresolved code (HTTP 404), business-rule violation
(HTTP 400 conflict), and the catch-all HTTP 500. -/
inductive TxnResult where
  | ok (item : Item)
  | validationError
  | notFound
  | conflict
  | internalError
deriving DecidableEq, Repr

/-- Whether the handler took its success path. -/
def TxnResult.isOk : TxnResult → Bool
  | .ok _ => true
  | _ => false

/-- Numeric value of a decimal digit character. -/
def digitVal (c : Char) : Nat := c.toNat - 48

/-- `parseInt` on a run of decimal digits. -/
def parseDigits (cs : List Char) : Nat :=
  cs.foldl (fun acc c => acc * 10 + digitVal c) 0

/-- `String.prototype.match(/\d+/)`: the first maximal run of decimal
digits in the string. -/
def firstDigitRun : List Char → List Char
  | [] => []
  | c :: cs => if c.isDigit then c :: cs.takeWhile Char.isDigit else firstDigitRun cs

/-- Test against the regular expression `^G\d+$`. -/
def matchesGPattern (s : String) : Bool :=
  match s.data with
  | [] => false
  | c :: rest => c == 'G' && !rest.isEmpty && rest.all Char.isDigit

/-- `String(n).padStart(3, '0')`. -/
def padStart3 (n : Nat) : String :=
  let s := toString n
  if s.length < 3 then String.mk (List.replicate (3 - s.length) '0' ++ s.data) else s

/-- Numeric suffix of a `G`-prefixed code, via the first digit run. -/
def qrSuffix (s : String) : Nat := parseDigits (firstDigitRun s.data)

/-- Embedding of `getNextQrCode` (src/server.js lines 346-366): takes the
most recently created item whose code matches `^G\d+$` — the
`sort({ createdAt: -1 }).limit(1)` means the LAST such item in creation
order, which is the last matching element of the list — extracts its
digits, adds one and zero-pads to three places; `G001` when no code
matches. -/
def getNextQrCode (items : List Item) : String :=
  let lastItem := (items.filter (fun i => matchesGPattern i.qrCode)).getLast?
  let nextNumber :=
    match lastItem with
    | none => 1
    | some it => qrSuffix it.qrCode + 1
  "G" ++ padStart3 nextNumber

/-- Modelled from the spec: the Sequence Allocator contract of spec §4.1,
"`G` + zero-padded 3-digit decimal, based on the highest numeric suffix
among existing codes matching that pattern, incremented by one; first
allocation yields `G001`". Written from the spec's words, to be compared
with `getNextQrCode` from the source. -/
def specNextQrCode (items : List Item) : String :=
  "G" ++ padStart3
    (((items.filter (fun i => matchesGPattern i.qrCode)).map
        (fun i => qrSuffix i.qrCode)).foldl max 0 + 1)

/-- Embedding of `POST /api/items` (src/server.js lines 410-442): allocates
a code, creates the item with `status: 'available'` and
`stock: isConsumible ? parseInt(stock) : 1` — the caller-supplied stock is
stored unvalidated — and appends the `register` history entry. The handler
performs no field validation. `stockReq` is the already-parsed integer of
the request's `stock` field. -/
def registerItem (s : Store) (name category description registeredBy : String)
    (isConsumible : Bool) (stockReq : Int) : Item × Store :=
  let qr := getNextQrCode s.items
  let newItem : Item :=
    { qrCode := qr, name := name, category := category, description := description,
      status := .available, currentHolder := none, loanDate := none,
      registeredBy := registeredBy, isConsumible := isConsumible,
      stock := if isConsumible then stockReq else 1 }
  let entry : HistoryEntry :=
    { itemId := qr, action := .register, person := registeredBy,
      validatedBy := registeredBy, quantity := 1,
      notes := "Registro inicial por " ++ registeredBy,
      createdAt := s.history.length }
  (newItem,
    { s with items := s.items ++ [newItem], history := s.history ++ [entry] })

/-- The consumable `updateQuery` of `POST /api/borrow`:
`{ $inc: { stock: -quantity } }` (src/server.js lines 492-494). -/
def consumUpdate (quantity : Int) (it : Item) : Item :=
  { it with stock := it.stock - quantity }

/-- The unique-item `updateQuery` of `POST /api/borrow`:
`{ status: 'borrowed', currentHolder: personName, loanDate: new Date() }`
(src/server.js lines 502-506). -/
def borrowUpdate (personName : String) (now : Nat) (it : Item) : Item :=
  { it with
    status := .borrowed
    currentHolder := some personName
    loanDate := some now }

/-- Intermediate state of the borrow handler between the
`Item.findOneAndUpdate` (line 509) and the `history.save()` (line 519):
either an early return left the store untouched, or the item collection
has been updated and the history append is still pending. -/
inductive BorrowStep where
  | err (r : TxnResult)
  | updated (s : Store) (e : HistoryEntry) (it : Item)

/-- The borrow handler (src/server.js lines 469-519) up to and including
the `findOneAndUpdate`: field validation, item lookup, the
`isConsumible` branch choosing `actionType`/`updateQuery` (stock check
against the requested quantity, or status check against
`borrowed`/`repair`), then the update keyed only on `{ qrCode }`. -/
def borrowStep1 (s : Store) (qrCode personName notes validatedBy : String)
    (quantity : Int) (now : Nat) : BorrowStep :=
  if qrCode == "" || personName == "" || validatedBy == "" then .err .validationError
  else
    match findOneItem s.items qrCode with
    | none => .err .notFound
    | some item =>
      let branch : Option (HAction × (Item → Item)) :=
        if item.isConsumible then
          if item.stock < quantity then none
          else some (.consumption, consumUpdate quantity)
        else
          if item.status == .borrowed || item.status == .repair then none
          else some (.borrow, borrowUpdate personName now)
      match branch with
      | none => .err .conflict
      | some (actionType, updateQuery) =>
        let r := findOneAndUpdate s.items (fun i => i.qrCode == qrCode) updateQuery
        match r.1 with
        | none => .err .internalError
        | some updatedItem =>
          .updated { s with items := r.2 }
            { itemId := updatedItem.qrCode, action := actionType,
              person := personName, validatedBy := validatedBy,
              quantity := quantity, notes := notes,
              createdAt := s.history.length } updatedItem

/-- `POST /api/borrow` (src/server.js lines 469-526) when both writes
succeed: the item update followed by the history append. -/
def borrow (s : Store) (qrCode personName notes validatedBy : String)
    (quantity : Int) (now : Nat) : TxnResult × Store :=
  match borrowStep1 s qrCode personName notes validatedBy quantity now with
  | .err r => (r, s)
  | .updated s' e _it => ((.ok _it), { s' with history := s'.history ++ [e] })

/-- `POST /api/borrow` when `history.save()` (line 519) throws a storage
error: the `findOneAndUpdate` of line 509 has already persisted, the
catch block answers HTTP 500, and no history entry is appended. -/
def borrowHistorySaveFails (s : Store) (qrCode personName notes validatedBy : String)
    (quantity : Int) (now : Nat) : TxnResult × Store :=
  match borrowStep1 s qrCode personName notes validatedBy quantity now with
  | .err r => (r, s)
  | .updated s' _e _it => (.internalError, s')

/-- The read phase of a borrow request on a unique item under concurrent
interleaving: the `Item.findOne` of line 477 plus the status check of
line 497, evaluated against the state current at read time. Returns
whether the handler proceeds to its write phase. -/
def borrowUniqueCheck (s : Store) (qr : String) : Bool :=
  match findOneItem s.items qr with
  | none => false
  | some item =>
    !item.isConsumible && !(item.status == .borrowed || item.status == .repair)

/-- The write phase of a borrow request on a unique item: the
`findOneAndUpdate({ qrCode }, updateQuery)` of line 509 — keyed only on
`qrCode`, not on the previously observed status — followed by the
history append and the success response. -/
def borrowCommitUnique (s : Store) (qr personName notes validatedBy : String)
    (quantity : Int) (now : Nat) : TxnResult × Store :=
  let r := findOneAndUpdate s.items (fun i => i.qrCode == qr) (borrowUpdate personName now)
  match r.1 with
  | none => (.internalError, s)
  | some updatedItem =>
    ((.ok updatedItem),
      { s with
        items := r.2
        history := s.history ++
          [{ itemId := updatedItem.qrCode, action := .borrow, person := personName,
             validatedBy := validatedBy, quantity := quantity, notes := notes,
             createdAt := s.history.length }] })

/-- The `returnUpdate` document of `POST /api/return` (src/server.js
lines 541-545). -/
def returnUpdate (it : Item) : Item :=
  { it with status := .available, currentHolder := none, loanDate := none }

/-- The conditional filter `{ qrCode, status: 'borrowed',
isConsumible: false }` of the return handler's `findOneAndUpdate`
(src/server.js line 540). -/
def retPred (qr : String) (i : Item) : Bool :=
  i.qrCode == qr && i.status == .borrowed && i.isConsumible == false

/-- `POST /api/return` (src/server.js lines 530-567): validates the three
required fields, then a single conditional `findOneAndUpdate`; when no
document matches the filter (not found, not borrowed, or consumable)
the one HTTP 400 branch answers; on success the `return` history entry
is appended. -/
def returnItem (s : Store) (qrCode notes personReturning almaceneroName : String) :
    TxnResult × Store :=
  if qrCode == "" || personReturning == "" || almaceneroName == "" then
    (.validationError, s)
  else
    let r := findOneAndUpdate s.items (retPred qrCode) returnUpdate
    match r.1 with
    | none => (.conflict, s)
    | some item =>
      ((.ok item),
        { s with
          items := r.2
          history := s.history ++
            [{ itemId := item.qrCode, action := .ret, person := personReturning,
               validatedBy := almaceneroName, quantity := 1, notes := notes,
               createdAt := s.history.length }] })

/-- Discriminated result of `POST /api/scan` (src/server.js lines
446-465). -/
inductive ScanResult where
  | item (data : Item)
  | worker (data : Worker)
  | none
deriving DecidableEq, Repr

/-- `POST /api/scan`: item lookup first, then worker lookup; the worker
branch answers `{ type: 'worker', data: worker }` with the FULL stored
document, `pin` included. -/
def resolveScan (s : Store) (qr : String) : ScanResult :=
  match findOneItem s.items qr with
  | some it => .item it
  | Option.none =>
    match findOneWorker s.workers qr with
    | some w => .worker w
    | Option.none => .none

/-- A worker document under the `{ pin: 0 }` projection of
`GET /api/workers` (src/server.js line 631). -/
structure WorkerView where
  qrCode : String
  name : String
  position : String
  role : Role
  attendance : List AttendanceEntry
deriving DecidableEq, Repr

/-- The `{ pin: 0 }` projection applied to one worker document. -/
def stripPin (w : Worker) : WorkerView :=
  { qrCode := w.qrCode, name := w.name, position := w.position, role := w.role,
    attendance := w.attendance }

/-- `GET /api/workers` (src/server.js lines 629-636):
`Worker.find({}, { pin: 0 })`. -/
def listWorkers (s : Store) : List WorkerView :=
  s.workers.map stripPin

/-- `lastAction === 'IN' ? 'OUT' : 'IN'` (src/server.js line 649). -/
def flipAction : AttAction → AttAction
  | .IN => .OUT
  | .OUT => .IN

/-- Rendering of an attendance action inside the notes template string. -/
def actionLabel : AttAction → String
  | .IN => "IN"
  | .OUT => "OUT"

/-- The per-worker core of `POST /api/attendance/scan` (src/server.js
lines 646-652): the last recorded action (OUT when the sequence is
empty) is flipped and a new entry with the flipped action, the current
timestamp and the templated notes is pushed. Returns the new action and
the updated worker. -/
def scanWorker (w : Worker) (now : Nat) : AttAction × Worker :=
  let lastAction := ((w.attendance.getLast?).map AttendanceEntry.action).getD .OUT
  let newAction := flipAction lastAction
  (newAction,
    { w with
      attendance := w.attendance ++
        [{ action := newAction, timestamp := now,
           notes := "Marcado " ++ actionLabel newAction }] })

/-- `worker.save()` after mutating the resolved document: replaces the
first worker with the given code. -/
def updateFirstWorker (ws : List Worker) (qr : String) (w' : Worker) : List Worker :=
  match ws with
  | [] => []
  | x :: xs => if x.qrCode == qr then w' :: xs else x :: updateFirstWorker xs qr w'

/-- `POST /api/attendance/scan` (src/server.js lines 638-662): resolves
the worker by code (`none` embeds the HTTP 404 branch), applies the
toggle and persists; answers the new action. -/
def attendanceScan (s : Store) (qr : String) (now : Nat) :
    Option (AttAction × Store) :=
  match findOneWorker s.workers qr with
  | Option.none => Option.none
  | some w =>
    let r := scanWorker w now
    some (r.1, { s with workers := updateFirstWorker s.workers qr r.2 })

/-- A sequence of attendance scans on one worker, at the given timestamps. -/
def scanTimes (w : Worker) : List Nat → Worker
  | [] => w
  | t :: ts => scanTimes (scanWorker w t).2 ts

/-- Comparison by creation time, the sort key of
`History.find({ itemId }).sort({ createdAt: 1 })`. -/
def histLe (a b : HistoryEntry) : Prop := a.createdAt ≤ b.createdAt

instance : DecidableRel histLe :=
  fun a b => inferInstanceAs (Decidable (a.createdAt ≤ b.createdAt))

instance : IsTotal HistoryEntry histLe :=
  ⟨fun a b => Nat.le_total a.createdAt b.createdAt⟩

instance : IsTrans HistoryEntry histLe :=
  ⟨fun _ _ _ h1 h2 => Nat.le_trans h1 h2⟩

/-- `GET /api/items/:qrCode/history` (src/server.js lines 385-406):
resolves the item by code (`none` embeds the HTTP 404 branch), then
returns the history entries referencing it sorted by `createdAt`
ascending (the database sort is modelled by a stable insertion sort on
the creation key). -/
def itemHistory (s : Store) (qr : String) : Option (List HistoryEntry) :=
  match findOneItem s.items qr with
  | Option.none => Option.none
  | some it =>
    some (List.insertionSort histLe
      (s.history.filter (fun e => e.itemId == it.qrCode)))

/-- The alternating attendance pattern starting with IN: the expected
action sequence after `n` toggles from an empty attendance log. -/
def altActions (n : Nat) : List AttAction :=
  (List.range n).map (fun i => if i % 2 = 0 then .IN else .OUT)

/-- Demo consumable item of the spec §8 scenario: code `G001`, stock 5. -/
def itemG001 : Item :=
  { qrCode := "G001", name := "Clavos", category := "Consumible", description := "",
    status := .available, currentHolder := none, loanDate := none,
    registeredBy := "Luis", isConsumible := true, stock := 5 }

/-- Demo unique (non-consumable) item: code `T001`, available. -/
def itemT001 : Item :=
  { qrCode := "T001", name := "Taladro", category := "Herramienta", description := "",
    status := .available, currentHolder := none, loanDate := none,
    registeredBy := "Luis", isConsumible := false, stock := 1 }

/-- Demo store holding the two demo items, empty worker and history
collections. -/
def storeGT : Store := { items := [itemG001, itemT001], workers := [], history := [] }

/-- Item with code `G005` (for allocator states). -/
def itemG005 : Item := { itemG001 with qrCode := "G005" }

/-- Item with code `G002` (for allocator states). -/
def itemG002 : Item := { itemG001 with qrCode := "G002" }

/-- Allocator state in which the most recently created matching code
(`G002`, last in creation order) does not carry the highest suffix
(`G005` does). -/
def outOfOrderItems : List Item := [itemG005, itemG002]

/-- Allocator state in which the most recently created matching code also
carries the highest suffix. -/
def inOrderItems : List Item := [itemG002, itemG005]

/-- Demo worker with an empty attendance log. -/
def workerW1 : Worker :=
  { qrCode := "W1", name := "Ana", position := "Obrera", pin := "1234",
    role := .trabajador, attendance := [] }

/-- Demo worker differing from `workerPinB` only in the `pin` field. -/
def workerPinA : Worker := { workerW1 with pin := "1111" }

/-- Demo worker differing from `workerPinA` only in the `pin` field. -/
def workerPinB : Worker := { workerW1 with pin := "2222" }

/-- Store holding only `workerPinA`. -/
def storeScanA : Store := { items := [], workers := [workerPinA], history := [] }

/-- Store holding only `workerPinB`. -/
def storeScanB : Store := { items := [], workers := [workerPinB], history := [] }

/-- Store after borrow attempt A commits on `storeGT` (interleaving
demo): A read the item as available before committing. -/
def storeAfterCommitA : Store :=
  (borrowCommitUnique storeGT "T001" "Ana" "" "Luis" 1 5).2

/-- Write phase of borrow attempt B, executed after A's although B also
read the item as available (both reads preceded both writes). -/
def commitBResult : TxnResult × Store :=
  borrowCommitUnique storeAfterCommitA "T001" "Beto" "" "Luis" 1 6

/-- The demo unique item after a borrow by Ana at time 9. -/
def itemT001b : Item := borrowUpdate "Ana" 9 itemT001

/-- Demo store in which the unique item `T001` is currently borrowed. -/
def storeBorrowed : Store :=
  { items := [itemG001, itemT001b], workers := [], history := [] }

/-- Demo store with three history entries, two of them referencing
`G001`, in creation order. -/
def storeHist : Store :=
  { items := [itemG001, itemT001], workers := [],
    history :=
      [{ itemId := "G001", action := .register, person := "Luis",
         validatedBy := "Luis", quantity := 1, notes := "", createdAt := 0 },
       { itemId := "T001", action := .register, person := "Luis",
         validatedBy := "Luis", quantity := 1, notes := "", createdAt := 1 },
       { itemId := "G001", action := .consumption, person := "Ana",
         validatedBy := "Luis", quantity := 3, notes := "", createdAt := 2 }] }

/- ------------------------------------------------------------------ -/
/- Helper lemmas                                                      -/
/- ------------------------------------------------------------------ -/

theorem findOneAndUpdate_of_find_none (l : List Item) (p : Item → Bool)
    (f : Item → Item) (h : l.find? p = none) : findOneAndUpdate l p f = (none, l) := by
  induction l with
  | nil => rfl
  | cons x xs ih =>
    cases hp : p x with
    | true =>
      rw [List.find?_cons_of_pos _ hp] at h
      exact absurd h (by simp)
    | false =>
      rw [List.find?_cons_of_neg _ (ne_true_of_eq_false hp)] at h
      simp [findOneAndUpdate, hp, ih h]

theorem findOneAndUpdate_of_find_some (l : List Item) (p : Item → Bool)
    (f : Item → Item) (it : Item) (h : l.find? p = some it) :
    ∃ pre post, l = pre ++ it :: post ∧ (∀ x ∈ pre, p x = false) ∧
      findOneAndUpdate l p f = (some (f it), pre ++ f it :: post) := by
  induction l with
  | nil => simp [List.find?] at h
  | cons x xs ih =>
    cases hp : p x with
    | true =>
      rw [List.find?_cons_of_pos _ hp] at h
      obtain rfl : x = it := by injection h
      exact ⟨[], xs, rfl, by simp, by simp [findOneAndUpdate, hp]⟩
    | false =>
      rw [List.find?_cons_of_neg _ (ne_true_of_eq_false hp)] at h
      obtain ⟨pre, post, heq, hpre, hupd⟩ := ih h
      refine ⟨x :: pre, post, by simp [heq], ?_, ?_⟩
      · intro y hy
        rcases List.mem_cons.mp hy with rfl | hy2
        · exact hp
        · exact hpre y hy2
      · simp [findOneAndUpdate, hp, hupd]

theorem find_append_left_none {α : Type} (p : α → Bool) (pre l : List α)
    (h : ∀ x ∈ pre, p x = false) : (pre ++ l).find? p = l.find? p := by
  induction pre with
  | nil => rfl
  | cons x xs ih =>
    have hx : p x = false := h x (List.mem_cons_self x xs)
    rw [List.cons_append, List.find?_cons_of_neg _ (ne_true_of_eq_false hx)]
    exact ih (fun y hy => h y (List.mem_cons_of_mem x hy))

theorem le_foldl_max (l : List Nat) (a : Nat) : a ≤ l.foldl max a := by
  induction l generalizing a with
  | nil => exact Nat.le_refl a
  | cons x xs ih => exact Nat.le_trans (Nat.le_max_left a x) (ih (max a x))

theorem mem_le_foldl_max (l : List Nat) : ∀ (a x : Nat), x ∈ l → x ≤ l.foldl max a := by
  induction l with
  | nil => intro a x hx; cases hx
  | cons y ys ih =>
    intro a x hx
    rcases List.mem_cons.mp hx with rfl | h2
    · exact Nat.le_trans (Nat.le_max_right a x) (le_foldl_max ys (max a x))
    · exact ih (max a y) x h2

theorem foldl_max_le (l : List Nat) :
    ∀ (a c : Nat), a ≤ c → (∀ x ∈ l, x ≤ c) → l.foldl max a ≤ c := by
  induction l with
  | nil => intro a c ha _; exact ha
  | cons y ys ih =>
    intro a c ha h
    exact ih (max a y) c (Nat.max_le.mpr ⟨ha, h y (List.mem_cons_self y ys)⟩)
      (fun x hx => h x (List.mem_cons_of_mem y hx))

theorem retPred_true_iff (qr : String) (i : Item) :
    retPred qr i = true ↔
      (i.qrCode = qr ∧ i.status = Status.borrowed ∧ i.isConsumible = false) := by
  simp [retPred, and_assoc]

theorem altActions_succ (n : Nat) :
    altActions (n + 1) =
      altActions n ++ [if n % 2 = 0 then AttAction.IN else AttAction.OUT] := by
  simp [altActions, List.range_succ]

theorem altActions_getLast (n : Nat) :
    ((altActions n).getLast?).getD AttAction.OUT =
      (if n % 2 = 0 then AttAction.OUT else AttAction.IN) := by
  cases n with
  | zero => rfl
  | succ m =>
    rw [altActions_succ, List.getLast?_concat]
    rcases Nat.mod_two_eq_zero_or_one m with h | h
    · have h1 : (m + 1) % 2 = 1 := by omega
      simp [h, h1]
    · have h1 : (m + 1) % 2 = 0 := by omega
      simp [h, h1]

theorem flip_altLast (n : Nat) :
    flipAction (((altActions n).getLast?).getD AttAction.OUT) =
      (if n % 2 = 0 then AttAction.IN else AttAction.OUT) := by
  rw [altActions_getLast]
  rcases Nat.mod_two_eq_zero_or_one n with h | h <;> simp [h, flipAction]

theorem scanWorker_actions (w : Worker) (t : Nat) (k : Nat)
    (h : w.attendance.map AttendanceEntry.action = altActions k) :
    (scanWorker w t).2.attendance.map AttendanceEntry.action = altActions (k + 1) := by
  have hlast : ((w.attendance.getLast?).map AttendanceEntry.action).getD AttAction.OUT
      = ((altActions k).getLast?).getD AttAction.OUT := by
    rw [← h, ← List.getLast?_map]
  simp only [scanWorker, List.map_append, List.map_cons, List.map_nil]
  rw [h, altActions_succ]
  congr 1
  rw [List.cons.injEq]
  exact ⟨by rw [hlast]; exact flip_altLast k, rfl⟩

theorem scanTimes_actions (ts : List Nat) :
    ∀ (w : Worker) (k : Nat),
      w.attendance.map AttendanceEntry.action = altActions k →
      (scanTimes w ts).attendance.map AttendanceEntry.action =
        altActions (k + ts.length) := by
  induction ts with
  | nil => intro w k h; simpa using h
  | cons t ts ih =>
    intro w k h
    have h2 := ih (scanWorker w t).2 (k + 1) (scanWorker_actions w t k h)
    rw [scanTimes, h2]
    congr 1
    simp
    omega

theorem altActions_chain (n : Nat) :
    List.Chain' (fun a b => a ≠ b) (altActions n) := by
  rw [List.chain'_iff_get]
  intro i hi
  have hlen : (altActions n).length = n := by simp [altActions]
  rw [hlen] at hi
  have h1 : i < n := by omega
  have h2 : i + 1 < n := by omega
  simp only [altActions, List.get_eq_getElem, List.getElem_map, List.getElem_range]
  rcases Nat.mod_two_eq_zero_or_one i with h | h
  · have h3 : (i + 1) % 2 = 1 := by omega
    simp [h, h3]
  · have h3 : (i + 1) % 2 = 0 := by omega
    simp [h, h3]

theorem altActions_head (n : Nat) (h : n ≠ 0) :
    (altActions n).head? = some AttAction.IN := by
  cases n with
  | zero => exact absurd rfl h
  | succ m =>
    rw [altActions, List.range_succ_eq_map]
    simp

/- ------------------------------------------------------------------ -/
/- Claim theorems                                                     -/
/- ------------------------------------------------------------------ -/

/-- Claim C1: a borrow request on an item with `isConsumible = true`
fails with Conflict and leaves the store unchanged when
`stock < quantity`; otherwise it decrements that item's stock by exactly
the quantity while all its other fields (`status`, `currentHolder`,
`loanDate` among them) and all other items stay untouched, and appends
exactly one history entry with action `consumption`, the given quantity,
`person` the actor and `validatedBy` the validator. -/
theorem claim1_consumable_borrow
    (s : Store) (qr person notes validator : String) (q : Int) (now : Nat) (it : Item)
    (hqr : qr ≠ "") (hperson : person ≠ "") (hval : validator ≠ "")
    (hfind : findOneItem s.items qr = some it)
    (hcons : it.isConsumible = true) :
    (it.stock < q →
      borrow s qr person notes validator q now = (TxnResult.conflict, s))
    ∧ (¬ it.stock < q →
      ∃ pre post,
        s.items = pre ++ it :: post ∧
        (∀ x ∈ pre, (x.qrCode == qr) = false) ∧
        borrow s qr person notes validator q now =
          ((TxnResult.ok { it with stock := it.stock - q }),
           { items := pre ++ ({ it with stock := it.stock - q }) :: post
             workers := s.workers
             history := s.history ++
               [{ itemId := it.qrCode, action := HAction.consumption, person := person,
                  validatedBy := validator, quantity := q, notes := notes,
                  createdAt := s.history.length }] })) := by
  have hq : (qr == "") = false := beq_eq_false_iff_ne.mpr hqr
  have hp : (person == "") = false := beq_eq_false_iff_ne.mpr hperson
  have hv : (validator == "") = false := beq_eq_false_iff_ne.mpr hval
  constructor
  · intro hlt
    simp [borrow, borrowStep1, hq, hp, hv, hfind, hcons, hlt]
  · intro hge
    obtain ⟨pre, post, heq, hpre, hupd⟩ :=
      findOneAndUpdate_of_find_some s.items (fun i => i.qrCode == qr)
        (consumUpdate q) it hfind
    refine ⟨pre, post, heq, hpre, ?_⟩
    simp [borrow, borrowStep1, hq, hp, hv, hfind, hcons, hge, hupd, consumUpdate]

/-- Claim C1 witness: the spec §8 scenario. Consuming 9 from the stock-5
item `G001` is a Conflict with the store unchanged; consuming 3 succeeds
with resulting stock 2. -/
theorem claim1_consumable_borrow_scenario :
    borrow storeGT "G001" "Ana" "" "Luis" 9 7 = (TxnResult.conflict, storeGT) ∧
    (borrow storeGT "G001" "Ana" "" "Luis" 3 7).1 =
      TxnResult.ok { itemG001 with stock := 2 } := by
  have h9 := claim1_consumable_borrow storeGT "G001" "Ana" "" "Luis" 9 7 itemG001
    (by decide) (by decide) (by decide) (by decide) rfl
  have h3 := claim1_consumable_borrow storeGT "G001" "Ana" "" "Luis" 3 7 itemG001
    (by decide) (by decide) (by decide) (by decide) rfl
  refine ⟨h9.1 (by decide), ?_⟩
  obtain ⟨pre, post, heq, hpre, hres⟩ := h3.2 (by decide)
  rw [hres]
  rfl

/-- Claim C2 counterexample: the claim states that a successful borrow of
a non-consumable item creates a history entry with quantity 1, for EVERY
borrow request. A request carrying `quantity = 2` on the available
non-consumable item `T001` succeeds, and the single appended history
entry records quantity 2, not 1 — the handler stores the request's
quantity verbatim (src/server.js line 517). -/
theorem claim2_quantity_counterexample :
    itemT001.isConsumible = false ∧
    (borrow storeGT "T001" "Ana" "" "Luis" 2 9).1.isOk = true ∧
    ((borrow storeGT "T001" "Ana" "" "Luis" 2 9).2.history.map HistoryEntry.quantity
      = [2]) ∧
    ((borrow storeGT "T001" "Ana" "" "Luis" 2 9).2.history.map HistoryEntry.quantity
      ≠ [1]) := by
  decide

/-- Claim C2 as amended: a borrow request on an item with
`isConsumible = false` fails with Conflict and leaves the store unchanged
when the item's status is `borrowed` or `repair`; otherwise it sets
`status = borrowed`, `currentHolder` to the actor and `loanDate` to the
current time, leaves all other items untouched, and appends exactly one
history entry with action `borrow` and the REQUEST quantity (which the
route defaults to 1 when the body omits it) — not unconditionally 1 as
the original claim states. -/
theorem claim2_unique_borrow
    (s : Store) (qr person notes validator : String) (q : Int) (now : Nat) (it : Item)
    (hqr : qr ≠ "") (hperson : person ≠ "") (hval : validator ≠ "")
    (hfind : findOneItem s.items qr = some it)
    (hcons : it.isConsumible = false) :
    ((it.status = Status.borrowed ∨ it.status = Status.repair) →
      borrow s qr person notes validator q now = (TxnResult.conflict, s))
    ∧ (it.status ≠ Status.borrowed → it.status ≠ Status.repair →
      ∃ pre post,
        s.items = pre ++ it :: post ∧
        (∀ x ∈ pre, (x.qrCode == qr) = false) ∧
        borrow s qr person notes validator q now =
          ((TxnResult.ok (borrowUpdate person now it)),
           { items := pre ++ borrowUpdate person now it :: post
             workers := s.workers
             history := s.history ++
               [{ itemId := it.qrCode, action := HAction.borrow, person := person,
                  validatedBy := validator, quantity := q, notes := notes,
                  createdAt := s.history.length }] })) := by
  have hq : (qr == "") = false := beq_eq_false_iff_ne.mpr hqr
  have hp : (person == "") = false := beq_eq_false_iff_ne.mpr hperson
  have hv : (validator == "") = false := beq_eq_false_iff_ne.mpr hval
  constructor
  · rintro (hst | hst) <;>
      simp [borrow, borrowStep1, hq, hp, hv, hfind, hcons, hst]
  · intro hnb hnr
    have hb : (it.status == Status.borrowed) = false := beq_eq_false_iff_ne.mpr hnb
    have hr : (it.status == Status.repair) = false := beq_eq_false_iff_ne.mpr hnr
    obtain ⟨pre, post, heq, hpre, hupd⟩ :=
      findOneAndUpdate_of_find_some s.items (fun i => i.qrCode == qr)
        (borrowUpdate person now) it hfind
    refine ⟨pre, post, heq, hpre, ?_⟩
    simp [borrow, borrowStep1, hq, hp, hv, hfind, hcons, hb, hr, hupd, borrowUpdate]

/-- Claim C2 witness: borrowing the available unique item `T001` with the
default quantity 1 succeeds and yields the borrowed item. -/
theorem claim2_unique_borrow_scenario :
    (borrow storeGT "T001" "Ana" "" "Luis" 1 9).1 =
      TxnResult.ok (borrowUpdate "Ana" 9 itemT001) := by
  have h := claim2_unique_borrow storeGT "T001" "Ana" "" "Luis" 1 9 itemT001
    (by decide) (by decide) (by decide) (by decide) rfl
  obtain ⟨pre, post, heq, hpre, hres⟩ := h.2 (by decide) (by decide)
  rw [hres]

/-- Claim C3: the return operation succeeds exactly when an item with the
given code exists, is non-consumable and is currently borrowed (the
`qrCode` uniqueness constraint of the schema is the pairwise-distinct
hypothesis); on success it resets that item to
`status = available, currentHolder = null, loanDate = null`, touches no
other item, and appends one history entry with action `return`; in every
other case — consumable item, unknown code, or status other than
borrowed, including a second return straight after a successful one —
it fails with Conflict and changes nothing. -/
theorem claim3_return_roundtrip (s : Store) (qr pr val notes : String)
    (hqr : qr ≠ "") (hpr : pr ≠ "") (hval : val ≠ "")
    (huniq : s.items.Pairwise (fun a b => a.qrCode ≠ b.qrCode)) :
    ((returnItem s qr notes pr val).1.isOk = true ↔
      ∃ it ∈ s.items, it.qrCode = qr ∧ it.isConsumible = false ∧
        it.status = Status.borrowed)
    ∧ ((returnItem s qr notes pr val).1.isOk = false →
        returnItem s qr notes pr val = (TxnResult.conflict, s))
    ∧ (∀ it, s.items.find? (retPred qr) = some it →
        ∃ pre post,
          s.items = pre ++ it :: post ∧
          returnItem s qr notes pr val =
            ((TxnResult.ok (returnUpdate it)),
             { items := pre ++ returnUpdate it :: post
               workers := s.workers
               history := s.history ++
                 [{ itemId := it.qrCode, action := HAction.ret, person := pr,
                    validatedBy := val, quantity := 1, notes := notes,
                    createdAt := s.history.length }] }) ∧
          (returnItem (returnItem s qr notes pr val).2 qr notes pr val).1 =
            TxnResult.conflict) := by
  have hq : (qr == "") = false := beq_eq_false_iff_ne.mpr hqr
  have hp : (pr == "") = false := beq_eq_false_iff_ne.mpr hpr
  have hv : (val == "") = false := beq_eq_false_iff_ne.mpr hval
  refine ⟨?_, ?_, ?_⟩
  · cases hfind : s.items.find? (retPred qr) with
    | none =>
      rw [List.find?_eq_none] at hfind
      have : returnItem s qr notes pr val = (TxnResult.conflict, s) := by
        simp [returnItem, hq, hp, hv,
          findOneAndUpdate_of_find_none _ _ _ (List.find?_eq_none.mpr hfind)]
      rw [this]
      simp only [TxnResult.isOk]
      constructor
      · intro hfalse; exact absurd hfalse (by simp)
      · rintro ⟨it, hit, h1, h2, h3⟩
        exact absurd ((retPred_true_iff qr it).mpr ⟨h1, h3, h2⟩)
          (by simpa using hfind it hit)
    | some it =>
      obtain ⟨pre, post, heq, hpre, hupd⟩ :=
        findOneAndUpdate_of_find_some s.items (retPred qr) returnUpdate it hfind
      have hret : retPred qr it = true := List.find?_some hfind
      obtain ⟨h1, h2, h3⟩ := (retPred_true_iff qr it).mp hret
      have : (returnItem s qr notes pr val).1 = TxnResult.ok (returnUpdate it) := by
        simp [returnItem, hq, hp, hv, hupd]
      rw [this]
      simp only [TxnResult.isOk]
      exact ⟨fun _ => ⟨it, by rw [heq]; simp, h1, h3, h2⟩, fun _ => by simp⟩
  · intro hfail
    cases hfind : s.items.find? (retPred qr) with
    | none =>
      simp [returnItem, hq, hp, hv,
        findOneAndUpdate_of_find_none _ _ _ hfind]
    | some it =>
      obtain ⟨pre, post, heq, hpre, hupd⟩ :=
        findOneAndUpdate_of_find_some s.items (retPred qr) returnUpdate it hfind
      have : (returnItem s qr notes pr val).1 = TxnResult.ok (returnUpdate it) := by
        simp [returnItem, hq, hp, hv, hupd]
      rw [this] at hfail
      simp [TxnResult.isOk] at hfail
  · intro it hfind
    obtain ⟨pre, post, heq, hpre, hupd⟩ :=
      findOneAndUpdate_of_find_some s.items (retPred qr) returnUpdate it hfind
    have hret : retPred qr it = true := List.find?_some hfind
    obtain ⟨h1, h2, h3⟩ := (retPred_true_iff qr it).mp hret
    have hres : returnItem s qr notes pr val =
        ((TxnResult.ok (returnUpdate it)),
         { items := pre ++ returnUpdate it :: post
           workers := s.workers
           history := s.history ++
             [{ itemId := it.qrCode, action := HAction.ret, person := pr,
                validatedBy := val, quantity := 1, notes := notes,
                createdAt := s.history.length }] }) := by
      simp [returnItem, hq, hp, hv, hupd, returnUpdate]
    refine ⟨pre, post, heq, hres, ?_⟩
    have hpost : ∀ x ∈ post, retPred qr x = false := by
      rw [heq] at huniq
      have h4 := (List.pairwise_append.mp huniq).2.1
      have h5 := (List.pairwise_cons.mp h4).1
      intro x hx
      have hne : x.qrCode ≠ qr := by
        intro hcontra
        exact (h5 x hx) (h1.trans hcontra.symm)
      simp [retPred, hne]
    have hmid : retPred qr (returnUpdate it) = false := by
      simp [retPred, returnUpdate]
    have hnone : (pre ++ returnUpdate it :: post).find? (retPred qr) = none := by
      rw [find_append_left_none _ pre _ hpre,
        List.find?_cons_of_neg _ (ne_true_of_eq_false hmid)]
      exact List.find?_eq_none.mpr (fun x hx => by simp [hpost x hx])
    rw [hres]
    simp [returnItem, hq, hp, hv, findOneAndUpdate_of_find_none _ _ _ hnone]

/-- Claim C3 witness: returning the borrowed unique item `T001` succeeds;
an immediate second return of the same code is a Conflict. -/
theorem claim3_return_scenario :
    (returnItem storeBorrowed "T001" "" "Ana" "Luis").1.isOk = true ∧
    (returnItem (returnItem storeBorrowed "T001" "" "Ana" "Luis").2 "T001" "" "Ana"
      "Luis").1 = TxnResult.conflict := by
  have h := claim3_return_roundtrip storeBorrowed "T001" "Ana" "Luis" ""
    (by decide) (by decide) (by decide) (by decide)
  obtain ⟨pre, post, heq, hres, hsecond⟩ := h.2.2 itemT001b (by decide)
  exact ⟨by rw [hres]; rfl, hsecond⟩

/-- Claim C4 (violated by the code): registering a consumable item stores
the caller-supplied stock without validation (src/server.js line 424,
`stock: isConsumible ? parseInt(stock) : 1`), so a registration with
stock −5 creates and persists an item whose stock is a negative integer,
contradicting the invariant that `stock ≥ 0` always holds after any
operation. -/
theorem claim4_negative_stock_registration :
    (registerItem storeGT "Tornillos" "Consumible" "" "Ana" true (-5)).1.stock = -5 ∧
    (registerItem storeGT "Tornillos" "Consumible" "" "Ana" true (-5)).1.stock < 0 ∧
    ((registerItem storeGT "Tornillos" "Consumible" "" "Ana" true (-5)).2.items.any
      (fun i => decide (i.stock < 0)) = true) := by
  decide

/-- Claim C5 (violated by the code): the borrow handler persists the item
update (`findOneAndUpdate`, src/server.js line 509) and the audit append
(`history.save()`, line 519) as two separate writes. When the second
write fails with a storage error, the handler answers HTTP 500 with the
item already mutated to `borrowed` and no matching history entry — the
state the atomicity requirement forbids. A fault-free run of the same
request appends exactly one entry. -/
theorem claim5_atomicity_violation :
    (borrowHistorySaveFails storeGT "T001" "Ana" "" "Luis" 1 3).1 =
      TxnResult.internalError ∧
    ((borrowHistorySaveFails storeGT "T001" "Ana" "" "Luis" 1 3).2.items.map Item.status
        = [Status.available, Status.borrowed]) ∧
    (borrowHistorySaveFails storeGT "T001" "Ana" "" "Luis" 1 3).2.history = [] ∧
    (borrow storeGT "T001" "Ana" "" "Luis" 1 3).2.history.length = 1 := by
  decide

/-- Claim C6 counterexample: the allocator does not use the highest
numeric suffix. In a store whose matching codes are, in creation order,
`G005` then `G002`, `getNextQrCode` follows the most recently created
code and yields `G003`, while the claimed highest-suffix rule yields
`G006`. -/
theorem claim6_latest_not_highest :
    getNextQrCode outOfOrderItems = "G003" ∧
    specNextQrCode outOfOrderItems = "G006" ∧
    getNextQrCode outOfOrderItems ≠ specNextQrCode outOfOrderItems := by
  decide

/-- Claim C6 as amended: the allocator returns `G` followed by the
zero-padded 3-digit decimal of (the numeric suffix of the MOST RECENTLY
CREATED code matching `G`+digits) + 1, and `G001` when no such code
exists; this coincides with the claimed highest-suffix + 1 exactly when
the most recently created matching code carries the maximal suffix —
which holds in every store the allocator itself produced. -/
theorem claim6_allocator_amended (items : List Item)
    (h : ∀ i ∈ items.filter (fun i => matchesGPattern i.qrCode),
      qrSuffix i.qrCode ≤
        (((items.filter (fun i => matchesGPattern i.qrCode)).getLast?).map
          (fun j => qrSuffix j.qrCode)).getD 0) :
    getNextQrCode items = specNextQrCode items := by
  cases hlast : (items.filter (fun i => matchesGPattern i.qrCode)).getLast? with
  | none =>
    have hnil : items.filter (fun i => matchesGPattern i.qrCode) = [] :=
      List.getLast?_eq_none_iff.mp hlast
    simp [getNextQrCode, specNextQrCode, hlast, hnil]
  | some a =>
    have hmem : a ∈ items.filter (fun i => matchesGPattern i.qrCode) :=
      List.mem_of_getLast?_eq_some hlast
    have hmax :
        (((items.filter (fun i => matchesGPattern i.qrCode)).map
          (fun i => qrSuffix i.qrCode)).foldl max 0) = qrSuffix a.qrCode := by
      apply Nat.le_antisymm
      · apply foldl_max_le
        · exact Nat.zero_le _
        · intro x hx
          obtain ⟨i, hi, rfl⟩ := List.mem_map.mp hx
          have h2 := h i hi
          rw [hlast] at h2
          simpa using h2
      · exact mem_le_foldl_max _ 0 _ (List.mem_map_of_mem _ hmem)
    simp [getNextQrCode, specNextQrCode, hlast, hmax]

/-- Claim C6 witness: in a store whose matching codes were created in
increasing-suffix order (`G002` then `G005`), the allocator and the
highest-suffix rule agree. -/
theorem claim6_allocator_amended_scenario :
    getNextQrCode inOrderItems = specNextQrCode inOrderItems :=
  claim6_allocator_amended inOrderItems (by decide)

/-- Claim C7: the attendance-toggle scan fails (HTTP 404) exactly when no
worker carries the scanned code; otherwise it appends exactly one entry
whose action is the flip of the last recorded action — an empty sequence
counting as OUT — and answers that new action; consequently, after any
sequence of scans starting from enrollment (empty attendance), the
attendance list never holds two consecutive entries with the same action
and its first entry is IN. -/
theorem claim7_attendance_toggle :
    (∀ (s : Store) (qr : String) (now : Nat),
      (attendanceScan s qr now = Option.none ↔
        findOneWorker s.workers qr = Option.none))
    ∧ (∀ (w : Worker) (t : Nat),
        (scanWorker w t).1 =
          flipAction (((w.attendance.getLast?).map AttendanceEntry.action).getD
            AttAction.OUT)
        ∧ (scanWorker w t).2.attendance =
            w.attendance ++
              [{ action := (scanWorker w t).1, timestamp := t,
                 notes := "Marcado " ++ actionLabel (scanWorker w t).1 }])
    ∧ (∀ (w : Worker), w.attendance = [] → ∀ ts : List Nat,
        List.Chain' (fun a b => a.action ≠ b.action) (scanTimes w ts).attendance
        ∧ (ts ≠ [] →
            ((scanTimes w ts).attendance.map AttendanceEntry.action).head? =
              some AttAction.IN)) := by
  refine ⟨?_, ?_, ?_⟩
  · intro s qr now
    cases h : findOneWorker s.workers qr with
    | none => simp [attendanceScan, h]
    | some w => simp [attendanceScan, h]
  · intro w t
    exact ⟨rfl, rfl⟩
  · intro w hw ts
    have h0 : w.attendance.map AttendanceEntry.action = altActions 0 := by
      rw [hw]; rfl
    have hmap := scanTimes_actions ts w 0 h0
    rw [Nat.zero_add] at hmap
    constructor
    · have hchain : List.Chain' (fun a b => a ≠ b)
          ((scanTimes w ts).attendance.map AttendanceEntry.action) := by
        rw [hmap]; exact altActions_chain ts.length
      exact (List.chain'_map AttendanceEntry.action).mp hchain
    · intro hne
      rw [hmap]
      exact altActions_head ts.length (by simpa using hne)

/-- Claim C7 witness: three scans on the freshly enrolled worker `W1`
produce a strictly alternating attendance log whose first action is IN. -/
theorem claim7_attendance_toggle_scenario :
    List.Chain' (fun a b => a.action ≠ b.action)
      (scanTimes workerW1 [1, 2, 3]).attendance
    ∧ ((scanTimes workerW1 [1, 2, 3]).attendance.map AttendanceEntry.action).head? =
        some AttAction.IN :=
  ⟨(claim7_attendance_toggle.2.2 workerW1 rfl [1, 2, 3]).1,
   (claim7_attendance_toggle.2.2 workerW1 rfl [1, 2, 3]).2 (by decide)⟩

/-- Claim C8 (violated by the code): the borrow handler reads the item
with a plain `findOne` (src/server.js line 477) and then writes with a
`findOneAndUpdate` keyed ONLY on `{ qrCode }` (line 509), not on the
previously observed status. Under the interleaving in which both of two
concurrent requests perform their read before either write — the read
check passes for both on the same available state — both writes then
succeed unconditionally: both requests answer success, the item ends
held by the second writer, and two `borrow` audit entries are appended,
contradicting the exactly-one-success requirement. -/
theorem claim8_double_success :
    borrowUniqueCheck storeGT "T001" = true ∧
    (borrowCommitUnique storeGT "T001" "Ana" "" "Luis" 1 5).1.isOk = true ∧
    commitBResult.1.isOk = true ∧
    ((findOneItem commitBResult.2.items "T001").map Item.currentHolder =
      some (some "Beto")) ∧
    commitBResult.2.history.map HistoryEntry.action =
      [HAction.borrow, HAction.borrow] := by
  decide

/-- Claim C9: the item-history listing resolves the item by code and
returns exactly the history entries referencing that item — membership
in the answer is equivalent to being a stored entry with that `itemId` —
ordered by creation time ascending. -/
theorem claim9_item_history (s : Store) (qr : String) (it : Item)
    (hfind : findOneItem s.items qr = some it) :
    ∃ l, itemHistory s qr = some l
      ∧ List.Perm l (s.history.filter (fun e => e.itemId == it.qrCode))
      ∧ (∀ e, e ∈ l ↔ (e ∈ s.history ∧ e.itemId = it.qrCode))
      ∧ List.Sorted histLe l := by
  refine ⟨List.insertionSort histLe
      (s.history.filter (fun e => e.itemId == it.qrCode)), ?_, ?_, ?_, ?_⟩
  · simp [itemHistory, hfind]
  · exact List.perm_insertionSort _ _
  · intro e
    rw [List.mem_insertionSort, List.mem_filter]
    simp
  · exact List.sorted_insertionSort _ _

/-- Claim C9 witness: the history listing of `G001` in the three-entry
demo store. -/
theorem claim9_item_history_scenario :
    ∃ l, itemHistory storeHist "G001" = some l
      ∧ List.Perm l (storeHist.history.filter (fun e => e.itemId == itemG001.qrCode))
      ∧ (∀ e, e ∈ l ↔ (e ∈ storeHist.history ∧ e.itemId = itemG001.qrCode))
      ∧ List.Sorted histLe l :=
  claim9_item_history storeHist "G001" itemG001 (by decide)

/-- Claim C10: when the scanned code matches no item, the scan dispatcher
answers the complete stored worker record, `pin` included, so the scan
output is NOT independent of the credential: two stores identical except
for one worker's pin produce different scan results — while the
worker-listing operation, which projects the pin away, answers
identically on both stores. -/
theorem claim10_scan_pin_leak
    (s1 s2 : Store) (qr : String) (pre post : List Worker) (w1 w2 : Worker)
    (hitems : ∀ i ∈ s1.items, (i.qrCode == qr) = false)
    (hitems2 : s2.items = s1.items)
    (hw1 : s1.workers = pre ++ w1 :: post)
    (hw2 : s2.workers = pre ++ w2 :: post)
    (hpre : ∀ u ∈ pre, (u.qrCode == qr) = false)
    (hcode : w1.qrCode = qr)
    (hview : stripPin w1 = stripPin w2)
    (hpin : w1.pin ≠ w2.pin) :
    resolveScan s1 qr = ScanResult.worker w1
    ∧ resolveScan s2 qr = ScanResult.worker w2
    ∧ resolveScan s1 qr ≠ resolveScan s2 qr
    ∧ listWorkers s1 = listWorkers s2 := by
  have hido : findOneItem s1.items qr = none :=
    List.find?_eq_none.mpr (fun x hx => by simp [hitems x hx])
  have hw2code : w2.qrCode = qr := by
    have h := congrArg WorkerView.qrCode hview
    simp [stripPin] at h
    rw [← h]; exact hcode
  have hfw1 : findOneWorker s1.workers qr = some w1 := by
    rw [hw1]
    unfold findOneWorker
    rw [find_append_left_none _ pre _ hpre]
    exact List.find?_cons_of_pos _ (by simp [hcode])
  have hfw2 : findOneWorker s2.workers qr = some w2 := by
    rw [hw2]
    unfold findOneWorker
    rw [find_append_left_none _ pre _ hpre]
    exact List.find?_cons_of_pos _ (by simp [hw2code])
  have hr1 : resolveScan s1 qr = ScanResult.worker w1 := by
    simp [resolveScan, hido, hfw1]
  have hr2 : resolveScan s2 qr = ScanResult.worker w2 := by
    simp [resolveScan, hitems2, hido, hfw2]
  refine ⟨hr1, hr2, ?_, ?_⟩
  · rw [hr1, hr2]
    intro hcontra
    have : w1 = w2 := by injection hcontra
    exact hpin (by rw [this])
  · simp [listWorkers, hw1, hw2, hview]

/-- Claim C10 witness: two one-worker stores differing only in the pin of
worker `W1`: the scan results differ, the worker listings coincide. -/
theorem claim10_scan_pin_leak_scenario :
    resolveScan storeScanA "W1" = ScanResult.worker workerPinA
    ∧ resolveScan storeScanB "W1" = ScanResult.worker workerPinB
    ∧ resolveScan storeScanA "W1" ≠ resolveScan storeScanB "W1"
    ∧ listWorkers storeScanA = listWorkers storeScanB :=
  claim10_scan_pin_leak storeScanA storeScanB "W1" [] [] workerPinA workerPinB
    (by intro i hi; cases hi) rfl rfl rfl (by intro u hu; cases hu) rfl
    (by decide) (by decide)

end SigInventario
